import Mathlib

/-!
# grok-cli: the tool-call resolution loop of `main.go`

A shallow embedding of `main.go`: the tool registry `toolFunctions`, the
round-trip loop (lines 160-231) and the session loop (lines 143-232).

External collaborators are explicit:

* the libraries the bindings call (`encoding/json`, `govaluate`, `os`) are the
  fields of `Env`;
* the HTTP exchange of lines 174-207 is an oracle `State F → RoundTrip` that
  tells which of the five error exits, if any, the iteration takes;
* everything the program does to the outside (standard output, requests sent,
  expressions evaluated, files read and written) is recorded in `World.trace`.

Go run-time panics (index out of range, call of a nil function value, a panic
inside a `govaluate` call, which `main.go` never recovers) are the `Fault`
outcomes.  The unbounded `for` loops take a fuel argument.
-/

namespace GrokCli

/-! ## Data model -/

/-- A value of Go type `interface{}` as `encoding/json` stores it: `nil`,
`bool`, `float64` (a finite binary fraction `mantissa * 2 ^ exponent`),
`string`, `[]interface{}` or `map[string]interface{}`. -/
inductive JVal where
  | null
  | bool (b : Bool)
  | number (mantissa exponent : Int)
  | str (s : String)
  | arr (items : List JVal)
  | obj (fields : List (String × JVal))

/-- A `map[string]interface{}`; `none` is the nil map. -/
abbrev Params := Option (List (String × JVal))

/-- The map read `params[key]`: a nil map and a missing key both give the nil
interface value. -/
def Params.index (params : Params) (key : String) : JVal :=
  match params with
  | none => JVal.null
  | some m => (m.lookup key).getD JVal.null

/-- The type assertion `v.(string)` in its comma-ok form. -/
def assertString : JVal → Option String
  | JVal.str s => some s
  | _ => none

/-- The `openai.FunctionCall` of a tool call. -/
structure FunctionCall where
  Name : String := ""
  Arguments : String := ""
  deriving DecidableEq

/-- The `openai.ToolCall` struct. -/
structure ToolCall where
  ID : String := ""
  Type_ : String := ""
  Function : FunctionCall := {}
  deriving DecidableEq

/-- The fields of `openai.ChatCompletionMessage` that `main.go` reads or
writes. -/
structure ChatCompletionMessage where
  Role : String := ""
  Content : String := ""
  Name : String := ""
  ToolCalls : List ToolCall := []
  ToolCallID : String := ""
  deriving DecidableEq

/-- The `openai.ChatCompletionChoice` struct. -/
structure ChatCompletionChoice where
  Index : Int := 0
  Message : ChatCompletionMessage := {}
  FinishReason : String := ""
  deriving DecidableEq

/-- The `openai.ChatCompletionResponse` struct. -/
structure ChatCompletionResponse where
  ID : String := ""
  Model : String := ""
  Choices : List ChatCompletionChoice := []
  deriving DecidableEq

/-- What the program does to the outside world. -/
inductive Event where
  | printed (text : String)
  | request (messages : List ChatCompletionMessage)
  | evaluated (expression : String)
  | fileRead (path : String)
  | fileWritten (path content : String)
  deriving DecidableEq

/-- The outside world: the file system and the record of effects so far. -/
structure World (F : Type) where
  fs : F
  trace : List Event

/-- Record one effect. -/
def World.log {F : Type} (w : World F) (e : Event) : World F :=
  { w with trace := w.trace ++ [e] }

/-- How a call into `govaluate` ends: with a value, with an error (its
`err.Error()`), or in a panic. -/
inductive Outcome (α : Type) where
  | ok (value : α)
  | error (err : String)
  | panic

/-- Go run-time panics reachable in `main`. -/
inductive Fault where
  | indexOutOfRange
  | nilFunctionCall
  | libraryPanic
  deriving DecidableEq

/-- The library calls made by the registry bindings.  `unmarshal` is
`json.Unmarshal([]byte(s), &params)` on a nil `params` (the error is dropped,
line 216); `newEvaluableExpression` and `evaluate` are the two `govaluate`
calls, `govaluate.NewEvaluableExpression(s)` and `expr.Evaluate(nil)`, the
second followed by `fmt.Sprint`; either may panic (release v3.0.0 panics in
`Evaluate(nil)` on an expression that names a variable).  `readFile` and
`writeFile` are `os.ReadFile` and `os.WriteFile` with mode 0644.  Errors carry
`err.Error()`. -/
structure Env (F X : Type) where
  unmarshal : String → Params
  newEvaluableExpression : String → Outcome X
  evaluate : X → Outcome String
  readFile : F → String → Except String String
  writeFile : F → String → String → Option String × F

/-! ## Tool registry (lines 70-112) -/

/-- The Go type `ToolFunction`, run against the world: the binding returns its
result string, or panics. -/
abbrev ToolFunction (F : Type) :=
  Params → World F → Except (Fault × World F) (String × World F)

variable {F X : Type}

/-- The binding `toolFunctions["calculate"]` (lines 71-85). -/
def calculate (env : Env F X) : ToolFunction F := fun params w =>
  match assertString (params.index "expression") with
  | none => Except.ok ("Error: invalid expression", w)
  | some exprStr =>
    let w1 := w.log (Event.evaluated exprStr)
    match env.newEvaluableExpression exprStr with
    | Outcome.panic => Except.error (Fault.libraryPanic, w1)
    | Outcome.error err => Except.ok ("Error: " ++ err, w1)
    | Outcome.ok expr =>
      match env.evaluate expr with
      | Outcome.panic => Except.error (Fault.libraryPanic, w1)
      | Outcome.error err => Except.ok ("Error: " ++ err, w1)
      | Outcome.ok result => Except.ok (result, w1)

/-- The binding `toolFunctions["read_file"]` (lines 86-96). -/
def readFile (env : Env F X) : ToolFunction F := fun params w =>
  match assertString (params.index "path") with
  | none => Except.ok ("Error: invalid path", w)
  | some path =>
    let w1 := w.log (Event.fileRead path)
    match env.readFile w.fs path with
    | Except.error err => Except.ok ("Error: " ++ err, w1)
    | Except.ok content => Except.ok (content, w1)

/-- The binding `toolFunctions["write_file"]` (lines 97-111). -/
def writeFile (env : Env F X) : ToolFunction F := fun params w =>
  match assertString (params.index "path") with
  | none => Except.ok ("Error: invalid path", w)
  | some path =>
    match assertString (params.index "content") with
    | none => Except.ok ("Error: invalid content", w)
    | some content =>
      let r := env.writeFile w.fs path content
      let w1 : World F := { fs := r.2, trace := w.trace ++ [Event.fileWritten path content] }
      match r.1 with
      | some err => Except.ok ("Error: " ++ err, w1)
      | none => Except.ok ("File written successfully", w1)

/-- The map `toolFunctions`; `none` is the nil function value a Go map read
gives for a missing key. -/
def toolFunctions (env : Env F X) (name : String) : Option (ToolFunction F) :=
  if name = "calculate" then some (calculate env)
  else if name = "read_file" then some (readFile env)
  else if name = "write_file" then some (writeFile env)
  else none

/-! ## Round-trip driver (lines 160-231) -/

/-- The program state: the `messages` slice and the world. -/
structure State (F : Type) where
  messages : List ChatCompletionMessage
  world : World F

/-- The call `fmt.Print(text)`. -/
def State.print (st : State F) (text : String) : State F :=
  { st with world := st.world.log (Event.printed text) }

/-- The statement `messages = append(messages, m)`. -/
def State.append (st : State F) (m : ChatCompletionMessage) : State F :=
  { st with messages := st.messages ++ [m] }

/-- The call `http.DefaultClient.Do(httpReq)`: the request body carries the
current `messages`. -/
def State.send (st : State F) : State F :=
  { st with world := st.world.log (Event.request st.messages) }

/-- How lines 174-207 end: at one of the five error exits, or with a decoded
response. -/
inductive RoundTrip where
  | marshalError (err : String)
  | createError (err : String)
  | sendError (err : String)
  | badStatus (status body : String)
  | decodeError (err : String)
  | ok (resp : ChatCompletionResponse)
  deriving DecidableEq

/-- Whether the round-trip took one of the five error exits. -/
def RoundTrip.failed : RoundTrip → Bool
  | RoundTrip.ok _ => false
  | _ => true

/-- The tool-role message built at lines 218-223. -/
def toolMessage (toolCall : ToolCall) (result : String) : ChatCompletionMessage :=
  { Role := "tool", ToolCallID := toolCall.ID, Name := toolCall.Function.Name, Content := result }

/-- The `range` loop over the tool calls (lines 213-224).  A missing registry
key makes `toolFunctions[funcName](params)` a call of a nil function; a panic
inside the binding ends the loop as well. -/
def dispatchToolCalls (reg : String → Option (ToolFunction F)) (env : Env F X) :
    List ToolCall → State F → Except (Fault × State F) (State F)
  | [], st => Except.ok st
  | toolCall :: rest, st =>
    let funcName := toolCall.Function.Name
    let params := env.unmarshal toolCall.Function.Arguments
    match reg funcName with
    | none => Except.error (Fault.nilFunctionCall, st)
    | some f =>
      match f params st.world with
      | Except.error (fault, w) =>
        Except.error (fault, { messages := st.messages, world := w })
      | Except.ok (result, w) =>
        dispatchToolCalls reg env rest
          { messages := st.messages ++ [toolMessage toolCall result], world := w }

/-- How one pass through the body of the inner `for` ends. -/
inductive Step (F : Type) where
  | next (st : State F)
  | final (st : State F)
  | abandoned (st : State F)
  | panic (fault : Fault) (st : State F)

/-- One pass through the body of the inner `for` (lines 161-230). -/
def driverIteration (reg : String → Option (ToolFunction F)) (env : Env F X)
    (exchange : State F → RoundTrip) (st : State F) : Step F :=
  match exchange st with
  | RoundTrip.marshalError err =>
    Step.abandoned (st.print ("Error marshaling request: " ++ err ++ "\n"))
  | RoundTrip.createError err =>
    Step.abandoned (st.print ("Error creating request: " ++ err ++ "\n"))
  | RoundTrip.sendError err =>
    Step.abandoned (st.send.print ("Error sending request: " ++ err ++ "\n"))
  | RoundTrip.badStatus status body =>
    Step.abandoned (st.send.print ("Error: " ++ status ++ " " ++ body ++ "\n"))
  | RoundTrip.decodeError err =>
    Step.abandoned (st.send.print ("Error decoding response: " ++ err ++ "\n"))
  | RoundTrip.ok resp =>
    match resp.Choices with
    | [] => Step.panic Fault.indexOutOfRange st.send
    | choice :: _ =>
      if choice.FinishReason = "tool_calls" then
        match dispatchToolCalls reg env choice.Message.ToolCalls
            (st.send.append choice.Message) with
        | Except.error (fault, st1) => Step.panic fault st1
        | Except.ok st1 => Step.next st1
      else
        Step.final ((st.send.append choice.Message).print
          ("Grok: " ++ choice.Message.Content ++ "\n"))

/-- How the inner `for` stands after some iterations. -/
inductive Resolution (F : Type) where
  | running (st : State F)
  | terminal (st : State F)
  | abandoned (st : State F)
  | crashed (fault : Fault) (st : State F)

/-- The inner `for` (lines 160-231), run for at most `fuel` iterations;
`running` means the loop is about to start a further iteration. -/
def driverLoop (reg : String → Option (ToolFunction F)) (env : Env F X)
    (exchange : State F → RoundTrip) : Nat → State F → Resolution F
  | 0, st => Resolution.running st
  | fuel + 1, st =>
    match driverIteration reg env exchange st with
    | Step.next st1 => driverLoop reg env exchange fuel st1
    | Step.final st1 => Resolution.terminal st1
    | Step.abandoned st1 => Resolution.abandoned st1
    | Step.panic fault st1 => Resolution.crashed fault st1

/-! ## Session loop (lines 135-232) -/

/-- The predicate `unicode.IsSpace`, which `strings.TrimSpace` uses. -/
def isSpace (c : Char) : Bool :=
  let n := c.toNat
  (9 ≤ n && n ≤ 13) || n = 32 || n = 0x85 || n = 0xA0 || n = 0x1680
    || (0x2000 ≤ n && n ≤ 0x200a) || n = 0x2028 || n = 0x2029 || n = 0x202f
    || n = 0x205f || n = 0x3000

/-- The call `strings.TrimSpace(s)`. -/
def trimSpace (s : String) : String :=
  String.mk ((s.data.dropWhile isSpace).reverse.dropWhile isSpace).reverse

/-- The initial `messages` slice (lines 135-137). -/
def initialMessages : List ChatCompletionMessage :=
  [{ Role := "system", Content := "You are a helpful AI agent." }]

/-- The state on entry to the outer `for`, after the banner of line 139. -/
def initialState (fs : F) : State F :=
  State.print { messages := initialMessages, world := { fs := fs, trace := [] } }
    "Grok CLI: Enter your query (type 'exit' to quit). Tools and live search are enabled.\n"

/-- What `reader.ReadString` returns: the text read and the error, if any. -/
structure ReadResult where
  input : String
  err : Option String := none
  deriving DecidableEq

/-- How one pass through the body of the outer `for` ends. -/
inductive SessionStep (F : Type) where
  | prompt (st : State F)
  | ended (st : State F)
  | crashed (fault : Fault) (st : State F)
  | running (st : State F)

/-- One pass through the body of the outer `for` (lines 144-231); the inner
loop gets `fuel` iterations. -/
def sessionIteration (reg : String → Option (ToolFunction F)) (env : Env F X)
    (exchange : State F → RoundTrip) (fuel : Nat) (st : State F) (read : ReadResult) :
    SessionStep F :=
  let st0 := st.print "You: "
  match read.err with
  | some err => SessionStep.prompt (st0.print (err ++ "\n"))
  | none =>
    let input := trimSpace read.input
    if input = "exit" then SessionStep.ended st0
    else
      match driverLoop reg env exchange fuel
          (st0.append { Role := "user", Content := input }) with
      | Resolution.terminal st1 => SessionStep.prompt st1
      | Resolution.abandoned st1 => SessionStep.prompt st1
      | Resolution.crashed fault st1 => SessionStep.crashed fault st1
      | Resolution.running st1 => SessionStep.running st1

/-- The outer `for` over the given reads. -/
def session (reg : String → Option (ToolFunction F)) (env : Env F X)
    (exchange : State F → RoundTrip) (fuel : Nat) : List ReadResult → State F → SessionStep F
  | [], st => SessionStep.prompt st
  | read :: rest, st =>
    match sessionIteration reg env exchange fuel st read with
    | SessionStep.prompt st1 => session reg env exchange fuel rest st1
    | other => other

/-- The state an outcome of the session loop carries. -/
def SessionStep.state : SessionStep F → State F
  | SessionStep.prompt st => st
  | SessionStep.ended st => st
  | SessionStep.crashed _ st => st
  | SessionStep.running st => st

/-- The state an outcome of one driver iteration carries. -/
def Step.state : Step F → State F
  | Step.next st => st
  | Step.final st => st
  | Step.abandoned st => st
  | Step.panic _ st => st

/-- The state an outcome of the driver loop carries. -/
def Resolution.state : Resolution F → State F
  | Resolution.running st => st
  | Resolution.terminal st => st
  | Resolution.abandoned st => st
  | Resolution.crashed _ st => st

/-- Whether an event is a request sent to the Model Service. -/
def Event.isRequest : Event → Bool
  | Event.request _ => true
  | _ => false

/-- The number of requests sent so far. -/
def requestCount (st : State F) : Nat :=
  (st.world.trace.filter Event.isRequest).length

/-- Whether a result string carries the error tag. -/
def hasErrorTag (s : String) : Bool :=
  "Error:".data.isPrefixOf s.data

/-- Whether the round-trip got as far as `http.DefaultClient.Do` (line 190):
marshalling and request creation succeeded. -/
def RoundTrip.sent : RoundTrip → Bool
  | RoundTrip.marshalError _ => false
  | RoundTrip.createError _ => false
  | _ => true

/-- The state in which the `range` loop over the tool calls stops. -/
def dispatchState : Except (Fault × State F) (State F) → State F
  | Except.ok st => st
  | Except.error (_, st) => st

/-- The fault a driver iteration ends in, if any. -/
def Step.fault : Step F → Option Fault
  | Step.panic fault _ => some fault
  | _ => none

/-- The fault the driver loop ends in, if any. -/
def Resolution.fault : Resolution F → Option Fault
  | Resolution.crashed fault _ => some fault
  | _ => none

/-- Whether the driver loop was left at one of the five error exits. -/
def Resolution.isAbandoned : Resolution F → Bool
  | Resolution.abandoned _ => true
  | _ => false

/-- Whether the session loop was left at the `break` of line 152. -/
def SessionStep.isEnded : SessionStep F → Bool
  | SessionStep.ended _ => true
  | _ => false

/-- Whether `govaluate` panics on the expression `s`, while parsing it or while
evaluating the parsed expression. -/
def evaluatorPanics (env : Env F X) (s : String) : Bool :=
  match env.newEvaluableExpression s with
  | Outcome.panic => true
  | Outcome.error _ => false
  | Outcome.ok expr =>
    match env.evaluate expr with
    | Outcome.panic => true
    | _ => false

/-- No `calculate` call of the batch carries a string `expression` on which
`govaluate` panics. -/
def NoEvaluatorPanic (env : Env F X) (calls : List ToolCall) : Prop :=
  ∀ c ∈ calls, c.Function.Name = "calculate" →
    ∀ (m : List (String × JVal)) (s : String),
      env.unmarshal c.Function.Arguments = some m →
      m.lookup "expression" = some (JVal.str s) → evaluatorPanics env s = false

/-- The service answers the request built from `s` with a response whose first
choice requests tools, all of them keys of `toolFunctions`. -/
def RequestsTools (env : Env F X) (exchange : State F → RoundTrip) (s : State F) : Prop :=
  ∃ (resp : ChatCompletionResponse) (choice : ChatCompletionChoice)
    (rest : List ChatCompletionChoice),
    exchange s = RoundTrip.ok resp ∧ resp.Choices = choice :: rest ∧
    choice.FinishReason = "tool_calls" ∧
    ∀ c ∈ choice.Message.ToolCalls, (toolFunctions env c.Function.Name).isSome = true

/-- As `RequestsTools`, and no requested `calculate` call makes `govaluate`
panic. -/
def RequestsReturningTools (env : Env F X) (exchange : State F → RoundTrip)
    (s : State F) : Prop :=
  ∃ (resp : ChatCompletionResponse) (choice : ChatCompletionChoice)
    (rest : List ChatCompletionChoice),
    exchange s = RoundTrip.ok resp ∧ resp.Choices = choice :: rest ∧
    choice.FinishReason = "tool_calls" ∧
    (∀ c ∈ choice.Message.ToolCalls, (toolFunctions env c.Function.Name).isSome = true) ∧
    NoEvaluatorPanic env choice.Message.ToolCalls

/-- The service answers the request built from `s` with a response whose first
choice does not request tools. -/
def AnswersFinally (exchange : State F → RoundTrip) (s : State F) : Prop :=
  ∃ (resp : ChatCompletionResponse) (choice : ChatCompletionChoice)
    (rest : List ChatCompletionChoice),
    exchange s = RoundTrip.ok resp ∧ resp.Choices = choice :: rest ∧
    choice.FinishReason ≠ "tool_calls"

/-! ## Test doubles -/

/-- An in-memory file system: path and content pairs. -/
abbrev MemFS := List (String × String)

/-- A stub environment: five argument payloads decode; `2 + 2` evaluates to
`4`, `x + 1` parses and makes the evaluation panic, as `Evaluate(nil)` of
govaluate v3.0.0 does on a variable, and any other expression fails to parse;
files live in memory. -/
def stubEnv : Env MemFS String where
  unmarshal := fun s =>
    if s = "\x7b\"expression\": \"2 + 2\"\x7d" then some [("expression", JVal.str "2 + 2")]
    else if s = "\x7b\"expression\": \"x + 1\"\x7d" then
      some [("expression", JVal.str "x + 1")]
    else if s = "\x7b\"path\": \"a.txt\"\x7d" then some [("path", JVal.str "a.txt")]
    else if s = "\x7b\"path\": \"a.txt\", \"content\": \"hi\"\x7d" then
      some [("path", JVal.str "a.txt"), ("content", JVal.str "hi")]
    else if s = "\x7b\x7d" then some []
    else none
  newEvaluableExpression := fun s =>
    if s = "2 + 2" then Outcome.ok s
    else if s = "x + 1" then Outcome.ok s
    else Outcome.error "Unexpected end of expression"
  evaluate := fun expr => if expr = "x + 1" then Outcome.panic else Outcome.ok "4"
  readFile := fun fs path =>
    match fs.lookup path with
    | some content => Except.ok content
    | none => Except.error ("open " ++ path ++ ": no such file or directory")
  writeFile := fun fs path content => (none, (path, content) :: fs)

/-- A batch of two tool calls. -/
def demoCalls : List ToolCall :=
  [{ ID := "call_1", Type_ := "function",
     Function := { Name := "calculate", Arguments := "\x7b\"expression\": \"2 + 2\"\x7d" } },
   { ID := "call_2", Type_ := "function",
     Function := { Name := "read_file", Arguments := "\x7b\"path\": \"a.txt\"\x7d" } }]

/-- A choice that requests the batch `demoCalls`. -/
def demoToolChoice : ChatCompletionChoice :=
  { FinishReason := "tool_calls", Message := { Role := "assistant", ToolCalls := demoCalls } }

/-- A choice that carries a final answer. -/
def demoFinalChoice : ChatCompletionChoice :=
  { FinishReason := "stop", Message := { Role := "assistant", Content := "The result is 4." } }

/-- A choice that requests a tool the registry does not have. -/
def demoUnknownChoice : ChatCompletionChoice :=
  { FinishReason := "tool_calls",
    Message := { Role := "assistant",
                 ToolCalls := [{ ID := "call_9", Type_ := "function",
                                 Function := { Name := "delete_file", Arguments := "\x7b\x7d" } }] } }

/-- A choice that requests `calculate` on an expression that names a variable,
then `write_file`. -/
def demoVariableChoice : ChatCompletionChoice :=
  { FinishReason := "tool_calls",
    Message :=
      { Role := "assistant",
        ToolCalls :=
          [{ ID := "call_3", Type_ := "function",
             Function := { Name := "calculate",
                           Arguments := "\x7b\"expression\": \"x + 1\"\x7d" } },
           { ID := "call_4", Type_ := "function",
             Function := { Name := "write_file",
                           Arguments := "\x7b\"path\": \"a.txt\", \"content\": \"hi\"\x7d" } }] } }

/-- A Model Service that always requests tools. -/
def alwaysTools : State MemFS → RoundTrip :=
  fun _ => RoundTrip.ok { Choices := [demoToolChoice] }

/-- A Model Service that always requests the batch of `demoVariableChoice`. -/
def alwaysVariable : State MemFS → RoundTrip :=
  fun _ => RoundTrip.ok { Choices := [demoVariableChoice] }

/-- A Model Service that requests tools until `k` requests have been sent and
answers finally from then on. -/
def toolsThenFinal (k : Nat) : State MemFS → RoundTrip :=
  fun st =>
    if requestCount st < k then RoundTrip.ok { Choices := [demoToolChoice] }
    else RoundTrip.ok { Choices := [demoFinalChoice] }

/-- A Model Service that requests tools once and then is unavailable. -/
def toolsThenDown : State MemFS → RoundTrip :=
  fun st =>
    if requestCount st < 1 then RoundTrip.ok { Choices := [demoToolChoice] }
    else RoundTrip.badStatus "503 Service Unavailable" "try again later"

/-- A Model Service that requests tools once, after which the next request
cannot be marshalled. -/
def toolsThenMarshalError : State MemFS → RoundTrip :=
  fun st =>
    if requestCount st < 1 then RoundTrip.ok { Choices := [demoToolChoice] }
    else RoundTrip.marshalError "json: error calling MarshalJSON"

/-! ## Registry lemmas -/

theorem hasErrorTag_append (err : String) : hasErrorTag ("Error: " ++ err) = true := by
  simp [hasErrorTag, String.data_append, List.isPrefixOf]

theorem assertString_eq_some_iff (params : Params) (key s : String) :
    assertString (params.index key) = some s ↔
      ∃ m, params = some m ∧ m.lookup key = some (JVal.str s) := by
  cases params with
  | none => simp [Params.index, assertString]
  | some m =>
    cases h : m.lookup key with
    | none => simp [Params.index, assertString, h]
    | some v => cases v <;> simp [Params.index, assertString, h]

theorem assertString_eq_none_iff (params : Params) (key : String) :
    assertString (params.index key) = none ↔
      ∀ (m : List (String × JVal)) (s : String),
        params = some m → m.lookup key ≠ some (JVal.str s) := by
  constructor
  · intro h m s hp hl
    have := (assertString_eq_some_iff params key s).mpr ⟨m, hp, hl⟩
    rw [h] at this
    cases this
  · intro h
    cases hs : assertString (params.index key) with
    | none => rfl
    | some s =>
      obtain ⟨m, hp, hl⟩ := (assertString_eq_some_iff params key s).mp hs
      exact absurd hl (h m s hp)

/-- A binding whose required parameter is missing or is not a string returns a
fixed string that carries the error tag and leaves the world as it was; for
`write_file` the path is checked before the content. -/
theorem bindings_reject_bad_parameters (env : Env F X) (params : Params) (w : World F) :
    ((∀ (m : List (String × JVal)) (s : String),
        params = some m → m.lookup "expression" ≠ some (JVal.str s)) →
      calculate env params w = Except.ok ("Error: invalid expression", w)) ∧
    ((∀ (m : List (String × JVal)) (s : String),
        params = some m → m.lookup "path" ≠ some (JVal.str s)) →
      readFile env params w = Except.ok ("Error: invalid path", w) ∧
      writeFile env params w = Except.ok ("Error: invalid path", w)) ∧
    (∀ (m : List (String × JVal)) (path : String),
      params = some m → m.lookup "path" = some (JVal.str path) →
      (∀ s : String, m.lookup "content" ≠ some (JVal.str s)) →
      writeFile env params w = Except.ok ("Error: invalid content", w)) ∧
    (hasErrorTag "Error: invalid expression" = true ∧
      hasErrorTag "Error: invalid path" = true ∧
      hasErrorTag "Error: invalid content" = true) := by
  refine ⟨?_, ?_, ?_, ⟨by decide, by decide, by decide⟩⟩
  · intro h
    have h1 := (assertString_eq_none_iff params "expression").mpr h
    simp [calculate, h1]
  · intro h
    have h1 := (assertString_eq_none_iff params "path").mpr h
    exact ⟨by simp [readFile, h1], by simp [writeFile, h1]⟩
  · intro m path hp hl hc
    have h1 := (assertString_eq_some_iff params "path" path).mpr ⟨m, hp, hl⟩
    have h2 : assertString (params.index "content") = none := by
      rw [assertString_eq_none_iff]
      intro m2 s hp2
      rw [hp] at hp2
      cases hp2
      exact hc s
    simp [writeFile, h1, h2]

theorem readFile_returns (env : Env F X) (params : Params) (w : World F) :
    ∃ r, readFile env params w = Except.ok r := by
  unfold readFile
  cases assertString (params.index "path") with
  | none => exact ⟨_, rfl⟩
  | some path =>
    dsimp only
    cases env.readFile w.fs path <;> exact ⟨_, rfl⟩

theorem writeFile_returns (env : Env F X) (params : Params) (w : World F) :
    ∃ r, writeFile env params w = Except.ok r := by
  unfold writeFile
  cases assertString (params.index "path") with
  | none => exact ⟨_, rfl⟩
  | some path =>
    dsimp only
    cases assertString (params.index "content") with
    | none => exact ⟨_, rfl⟩
    | some content =>
      dsimp only
      cases (env.writeFile w.fs path content).1 <;> exact ⟨_, rfl⟩

theorem calculate_returns_iff (env : Env F X) (params : Params) (w : World F) :
    (∃ r, calculate env params w = Except.ok r) ↔
      ∀ (m : List (String × JVal)) (s : String),
        params = some m → m.lookup "expression" = some (JVal.str s) →
        evaluatorPanics env s = false := by
  cases hs : assertString (params.index "expression") with
  | none =>
    have hnone := (assertString_eq_none_iff params "expression").mp hs
    constructor
    · intro _ m s hp hl
      exact absurd hl (hnone m s hp)
    · intro _
      exact ⟨("Error: invalid expression", w), by simp [calculate, hs]⟩
  | some exprStr =>
    obtain ⟨m0, hp0, hl0⟩ := (assertString_eq_some_iff params "expression" exprStr).mp hs
    have hcases : (∃ r, calculate env params w = Except.ok r) ↔
        evaluatorPanics env exprStr = false := by
      unfold calculate evaluatorPanics
      rw [hs]
      dsimp only
      cases env.newEvaluableExpression exprStr with
      | panic => simp
      | error err => simp
      | ok expr =>
        dsimp only
        cases env.evaluate expr <;> simp
    rw [hcases]
    constructor
    · intro h m s hp hl
      rw [hp0] at hp
      cases hp
      rw [hl0] at hl
      cases hl
      exact h
    · intro h
      exact h m0 exprStr hp0 hl0

/-- C3 at the failing input: `calculate` has no `recover`, so when the
`expression` parameter is a string that `govaluate` parses and then panics on
in `Evaluate(nil)`, the binding does not return an `Error:` string: it panics,
and the `range` loop of the driver ends in that panic, with no tool-role
message appended for the call. -/
theorem calculate_panics_with_evaluator (env : Env F X) (m : List (String × JVal))
    (s : String) (expr : X) (w : World F) (c : ToolCall) (rest : List ToolCall)
    (st : State F)
    (hl : m.lookup "expression" = some (JVal.str s))
    (hparse : env.newEvaluableExpression s = Outcome.ok expr)
    (heval : env.evaluate expr = Outcome.panic)
    (hname : c.Function.Name = "calculate")
    (hargs : env.unmarshal c.Function.Arguments = some m) :
    calculate env (some m) w =
      Except.error (Fault.libraryPanic,
        { fs := w.fs, trace := w.trace ++ [Event.evaluated s] }) ∧
    dispatchToolCalls (toolFunctions env) env (c :: rest) st =
      Except.error (Fault.libraryPanic,
        { messages := st.messages,
          world := { fs := st.world.fs,
                     trace := st.world.trace ++ [Event.evaluated s] } }) := by
  have hs : assertString (Params.index (some m) "expression") = some s :=
    (assertString_eq_some_iff (some m) "expression" s).mpr ⟨m, rfl, hl⟩
  have hcalc : ∀ w0 : World F, calculate env (some m) w0 =
      Except.error (Fault.libraryPanic,
        { fs := w0.fs, trace := w0.trace ++ [Event.evaluated s] }) := by
    intro w0
    simp [calculate, hs, hparse, heval, World.log]
  refine ⟨hcalc w, ?_⟩
  have hf : toolFunctions env c.Function.Name = some (calculate env) := by
    simp [toolFunctions, hname]
  simp [dispatchToolCalls, hf, hargs, hcalc]

/-- C3 on the stub evaluator, at the expression `x + 1`. -/
theorem calculate_panics_with_evaluator_witness :
    (List.lookup "expression" [("expression", JVal.str "x + 1")] = some (JVal.str "x + 1") ∧
      stubEnv.newEvaluableExpression "x + 1" = Outcome.ok "x + 1" ∧
      stubEnv.evaluate "x + 1" = Outcome.panic) ∧
    calculate stubEnv (some [("expression", JVal.str "x + 1")]) { fs := [], trace := [] } =
      Except.error (Fault.libraryPanic,
        { fs := [], trace := [] ++ [Event.evaluated "x + 1"] }) :=
  ⟨⟨rfl, rfl, rfl⟩,
    (calculate_panics_with_evaluator stubEnv [("expression", JVal.str "x + 1")] "x + 1"
      "x + 1" { fs := [], trace := [] }
      { ID := "call_3", Type_ := "function",
        Function := { Name := "calculate",
                      Arguments := "\x7b\"expression\": \"x + 1\"\x7d" } }
      [] (initialState []) rfl rfl rfl rfl rfl).1⟩

/-! ## Dispatch lemmas -/

theorem dispatchToolCalls_cons_ok (reg : String → Option (ToolFunction F)) (env : Env F X)
    (c : ToolCall) (cs : List ToolCall) (st : State F) (f : ToolFunction F)
    (r : String × World F) (hf : reg c.Function.Name = some f)
    (hr : f (env.unmarshal c.Function.Arguments) st.world = Except.ok r) :
    dispatchToolCalls reg env (c :: cs) st =
      dispatchToolCalls reg env cs
        { messages := st.messages ++ [toolMessage c r.1], world := r.2 } := by
  obtain ⟨result, w⟩ := r
  simp [dispatchToolCalls, hf, hr]

theorem dispatchToolCalls_cons_panic (reg : String → Option (ToolFunction F)) (env : Env F X)
    (c : ToolCall) (cs : List ToolCall) (st : State F) (f : ToolFunction F)
    (fault : Fault) (w : World F) (hf : reg c.Function.Name = some f)
    (hr : f (env.unmarshal c.Function.Arguments) st.world = Except.error (fault, w)) :
    dispatchToolCalls reg env (c :: cs) st =
      Except.error (fault, { messages := st.messages, world := w }) := by
  simp [dispatchToolCalls, hf, hr]

theorem dispatchToolCalls_ok (reg : String → Option (ToolFunction F)) (env : Env F X) :
    ∀ (calls : List ToolCall) (st : State F),
      (∀ c ∈ calls, (reg c.Function.Name).isSome = true) →
      (∀ c ∈ calls, ∀ f, reg c.Function.Name = some f →
        ∀ w, ∃ r, f (env.unmarshal c.Function.Arguments) w = Except.ok r) →
      ∃ (st1 : State F) (toolMsgs : List ChatCompletionMessage),
        dispatchToolCalls reg env calls st = Except.ok st1 ∧
        st1.messages = st.messages ++ toolMsgs ∧
        toolMsgs.length = calls.length ∧
        ∀ (i : Nat) (c : ToolCall), calls[i]? = some c →
          ∃ (f : ToolFunction F) (sti : State F) (r : String × World F),
            reg c.Function.Name = some f ∧
            dispatchToolCalls reg env (calls.take i) st = Except.ok sti ∧
            f (env.unmarshal c.Function.Arguments) sti.world = Except.ok r ∧
            toolMsgs[i]? = some
              { Role := "tool", ToolCallID := c.ID, Name := c.Function.Name,
                Content := r.1 } := by
  intro calls
  induction calls with
  | nil =>
    intro st _ _
    exact ⟨st, [], rfl, by simp, rfl, fun i c h => by simp at h⟩
  | cons c cs ih =>
    intro st hreg hret
    have hc : (reg c.Function.Name).isSome = true := hreg c (List.mem_cons_self _ _)
    obtain ⟨f, hf⟩ : ∃ f, reg c.Function.Name = some f := by
      cases hr : reg c.Function.Name with
      | none => simp [hr] at hc
      | some f => exact ⟨f, rfl⟩
    obtain ⟨r, hr⟩ := hret c (List.mem_cons_self _ _) f hf st.world
    obtain ⟨st1, msgs, hrun, hmsgs, hlen, hpt⟩ :=
      ih { messages := st.messages ++ [toolMessage c r.1], world := r.2 }
        (fun d hd => hreg d (List.mem_cons_of_mem _ hd))
        (fun d hd => hret d (List.mem_cons_of_mem _ hd))
    refine ⟨st1, toolMessage c r.1 :: msgs, ?_, ?_, ?_, ?_⟩
    · rw [dispatchToolCalls_cons_ok reg env c cs st f r hf hr]
      exact hrun
    · rw [hmsgs]
      simp
    · simp [hlen]
    · intro i d hi
      cases i with
      | zero =>
        have hd : c = d := by simpa using hi
        subst hd
        exact ⟨f, st, r, hf, rfl, hr, by simp [toolMessage]⟩
      | succ j =>
        have hj : cs[j]? = some d := by simpa using hi
        obtain ⟨g, sti, rj, hg, hrunj, hrj, hmsg⟩ := hpt j d hj
        refine ⟨g, sti, rj, hg, ?_, hrj, ?_⟩
        · rw [List.take_succ_cons, dispatchToolCalls_cons_ok reg env c _ st f r hf hr]
          exact hrunj
        · simpa using hmsg

theorem toolFunctions_isSome_iff (env : Env F X) (name : String) :
    (toolFunctions env name).isSome = true ↔
      name = "calculate" ∨ name = "read_file" ∨ name = "write_file" := by
  unfold toolFunctions
  by_cases h1 : name = "calculate"
  · simp [h1]
  · by_cases h2 : name = "read_file"
    · simp [h2]
    · by_cases h3 : name = "write_file"
      · simp [h3]
      · simp [h1, h2, h3]

theorem binding_returns_iff (env : Env F X) (name : String) (f : ToolFunction F)
    (hf : toolFunctions env name = some f) (params : Params) (w : World F) :
    (∃ r, f params w = Except.ok r) ↔
      (name = "calculate" →
        ∀ (m : List (String × JVal)) (s : String),
          params = some m → m.lookup "expression" = some (JVal.str s) →
          evaluatorPanics env s = false) := by
  unfold toolFunctions at hf
  split_ifs at hf with h1 h2 h3 <;> simp only [Option.some.injEq] at hf <;> subst hf
  · rw [calculate_returns_iff]
    simp [h1]
  · simp [h1, readFile_returns env params w]
  · simp [h1, writeFile_returns env params w]

theorem bindings_return_of_noEvaluatorPanic (env : Env F X) (calls : List ToolCall)
    (h : NoEvaluatorPanic env calls) :
    ∀ c ∈ calls, ∀ f, toolFunctions env c.Function.Name = some f →
      ∀ w, ∃ r, f (env.unmarshal c.Function.Arguments) w = Except.ok r := by
  intro c hc f hf w
  rw [binding_returns_iff env c.Function.Name f hf]
  intro hname m s hm hl
  exact h c hc hname m s hm hl

theorem binding_trace (env : Env F X) (name : String) (f : ToolFunction F)
    (hf : toolFunctions env name = some f) (params : Params) (w : World F) :
    (∀ r, f params w = Except.ok r →
      ∃ es : List Event, r.2.trace = w.trace ++ es ∧ ∀ e ∈ es, e.isRequest = false) ∧
    (∀ fault w1, f params w = Except.error (fault, w1) →
      ∃ es : List Event, w1.trace = w.trace ++ es ∧ ∀ e ∈ es, e.isRequest = false) := by
  unfold toolFunctions at hf
  split_ifs at hf <;> simp only [Option.some.injEq] at hf <;> subst hf
  · unfold calculate
    cases assertString (params.index "expression") with
    | none =>
      constructor
      · intro r hr
        cases hr
        exact ⟨[], by simp, by simp⟩
      · intro fault w1 hr
        cases hr
    | some exprStr =>
      dsimp only
      cases env.newEvaluableExpression exprStr with
      | panic =>
        constructor
        · intro r hr
          cases hr
        · intro fault w1 hr
          cases hr
          exact ⟨[Event.evaluated exprStr], rfl, by simp [Event.isRequest]⟩
      | error err =>
        constructor
        · intro r hr
          cases hr
          exact ⟨[Event.evaluated exprStr], rfl, by simp [Event.isRequest]⟩
        · intro fault w1 hr
          cases hr
      | ok expr =>
        dsimp only
        cases env.evaluate expr with
        | panic =>
          constructor
          · intro r hr
            cases hr
          · intro fault w1 hr
            cases hr
            exact ⟨[Event.evaluated exprStr], rfl, by simp [Event.isRequest]⟩
        | error err =>
          constructor
          · intro r hr
            cases hr
            exact ⟨[Event.evaluated exprStr], rfl, by simp [Event.isRequest]⟩
          · intro fault w1 hr
            cases hr
        | ok result =>
          constructor
          · intro r hr
            cases hr
            exact ⟨[Event.evaluated exprStr], rfl, by simp [Event.isRequest]⟩
          · intro fault w1 hr
            cases hr
  · unfold readFile
    cases assertString (params.index "path") with
    | none =>
      constructor
      · intro r hr
        cases hr
        exact ⟨[], by simp, by simp⟩
      · intro fault w1 hr
        cases hr
    | some path =>
      dsimp only
      cases env.readFile w.fs path <;>
      · constructor
        · intro r hr
          cases hr
          exact ⟨[Event.fileRead path], rfl, by simp [Event.isRequest]⟩
        · intro fault w1 hr
          cases hr
  · unfold writeFile
    cases assertString (params.index "path") with
    | none =>
      constructor
      · intro r hr
        cases hr
        exact ⟨[], by simp, by simp⟩
      · intro fault w1 hr
        cases hr
    | some path =>
      dsimp only
      cases assertString (params.index "content") with
      | none =>
        constructor
        · intro r hr
          cases hr
          exact ⟨[], by simp, by simp⟩
        · intro fault w1 hr
          cases hr
      | some content =>
        dsimp only
        cases (env.writeFile w.fs path content).1 <;>
        · constructor
          · intro r hr
            cases hr
            exact ⟨[Event.fileWritten path content], rfl, by simp [Event.isRequest]⟩
          · intro fault w1 hr
            cases hr

theorem dispatchToolCalls_trace (env : Env F X) :
    ∀ (calls : List ToolCall) (st : State F),
      ∃ es : List Event,
        (dispatchState (dispatchToolCalls (toolFunctions env) env calls st)).world.trace
          = st.world.trace ++ es ∧
        ∀ e ∈ es, e.isRequest = false := by
  intro calls
  induction calls with
  | nil => intro st; exact ⟨[], by simp [dispatchToolCalls, dispatchState], by simp⟩
  | cons c cs ih =>
    intro st
    cases hf : toolFunctions env c.Function.Name with
    | none => exact ⟨[], by simp [dispatchToolCalls, dispatchState, hf], by simp⟩
    | some f =>
      have htr := binding_trace env _ f hf (env.unmarshal c.Function.Arguments) st.world
      cases hr : f (env.unmarshal c.Function.Arguments) st.world with
      | error e =>
        obtain ⟨fault, w1⟩ := e
        obtain ⟨es, h1, hn⟩ := htr.2 fault w1 hr
        rw [dispatchToolCalls_cons_panic _ env c cs st f fault w1 hf hr]
        exact ⟨es, by simpa [dispatchState] using h1, hn⟩
      | ok r =>
        obtain ⟨es1, h1, hn1⟩ := htr.1 r hr
        rw [dispatchToolCalls_cons_ok _ env c cs st f r hf hr]
        obtain ⟨es2, h2, hn2⟩ := ih
          { messages := st.messages ++ [toolMessage c r.1], world := r.2 }
        refine ⟨es1 ++ es2, ?_, ?_⟩
        · rw [h2]
          simp [h1]
        · intro e he
          rcases List.mem_append.mp he with h | h
          · exact hn1 e h
          · exact hn2 e h

theorem dispatchToolCalls_messages (reg : String → Option (ToolFunction F)) (env : Env F X) :
    ∀ (calls : List ToolCall) (st : State F),
      st.messages <+: (dispatchState (dispatchToolCalls reg env calls st)).messages := by
  intro calls
  induction calls with
  | nil => intro st; simp [dispatchToolCalls, dispatchState]
  | cons c cs ih =>
    intro st
    cases hf : reg c.Function.Name with
    | none => simp [dispatchToolCalls, dispatchState, hf]
    | some f =>
      cases hr : f (env.unmarshal c.Function.Arguments) st.world with
      | error e =>
        obtain ⟨fault, w1⟩ := e
        rw [dispatchToolCalls_cons_panic reg env c cs st f fault w1 hf hr]
        simp [dispatchState]
      | ok r =>
        rw [dispatchToolCalls_cons_ok reg env c cs st f r hf hr]
        refine List.IsPrefix.trans ?_ (ih _)
        exact List.prefix_append _ _

theorem requestCount_of_trace (st st1 : State F) (es : List Event)
    (h : st1.world.trace = st.world.trace ++ es) (hn : ∀ e ∈ es, e.isRequest = false) :
    requestCount st1 = requestCount st := by
  unfold requestCount
  rw [h, List.filter_append]
  have : es.filter Event.isRequest = [] := by
    rw [List.filter_eq_nil_iff]
    intro e he
    simp [hn e he]
  simp [this]

theorem noEvaluatorPanic_cons (env : Env F X) (c : ToolCall) (cs : List ToolCall) :
    NoEvaluatorPanic env (c :: cs) ↔
      (c.Function.Name = "calculate" →
        ∀ (m : List (String × JVal)) (s : String),
          env.unmarshal c.Function.Arguments = some m →
          m.lookup "expression" = some (JVal.str s) → evaluatorPanics env s = false) ∧
      NoEvaluatorPanic env cs := by
  simp [NoEvaluatorPanic]

theorem dispatchToolCalls_ok_iff (env : Env F X) :
    ∀ (calls : List ToolCall) (st : State F),
      (∃ st1, dispatchToolCalls (toolFunctions env) env calls st = Except.ok st1) ↔
        (∀ c ∈ calls, (toolFunctions env c.Function.Name).isSome = true) ∧
        NoEvaluatorPanic env calls := by
  intro calls st
  constructor
  · induction calls generalizing st with
    | nil =>
      intro _
      exact ⟨fun c hc => by simp at hc, fun c hc => by simp at hc⟩
    | cons c cs ih =>
      intro ⟨st1, h⟩
      cases hf : toolFunctions env c.Function.Name with
      | none => simp [dispatchToolCalls, hf] at h
      | some f =>
        cases hr : f (env.unmarshal c.Function.Arguments) st.world with
        | error e =>
          obtain ⟨fault, w1⟩ := e
          rw [dispatchToolCalls_cons_panic _ env c cs st f fault w1 hf hr] at h
          cases h
        | ok r =>
          rw [dispatchToolCalls_cons_ok _ env c cs st f r hf hr] at h
          obtain ⟨hreg, hno⟩ := ih _ ⟨st1, h⟩
          refine ⟨?_, ?_⟩
          · intro d hd
            rcases List.mem_cons.mp hd with rfl | hd
            · simp [hf]
            · exact hreg d hd
          · rw [noEvaluatorPanic_cons]
            exact ⟨(binding_returns_iff env _ f hf _ st.world).mp ⟨r, hr⟩, hno⟩
  · intro ⟨hreg, hno⟩
    obtain ⟨st1, _, hrun, _⟩ := dispatchToolCalls_ok (toolFunctions env) env calls st hreg
      (bindings_return_of_noEvaluatorPanic env calls hno)
    exact ⟨st1, hrun⟩

/-! ## Driver lemmas -/

@[simp] theorem requestCount_send (st : State F) : requestCount st.send = requestCount st + 1 := by
  simp [requestCount, State.send, World.log, List.filter_append, Event.isRequest]

@[simp] theorem requestCount_print (st : State F) (text : String) :
    requestCount (st.print text) = requestCount st := by
  simp [requestCount, State.print, World.log, List.filter_append, Event.isRequest]

@[simp] theorem requestCount_append (st : State F) (m : ChatCompletionMessage) :
    requestCount (st.append m) = requestCount st := rfl

theorem driverIteration_tool (reg : String → Option (ToolFunction F)) (env : Env F X)
    (exchange : State F → RoundTrip) (st : State F) (resp : ChatCompletionResponse)
    (choice : ChatCompletionChoice) (rest : List ChatCompletionChoice)
    (hex : exchange st = RoundTrip.ok resp) (hch : resp.Choices = choice :: rest)
    (hfin : choice.FinishReason = "tool_calls") :
    driverIteration reg env exchange st =
      match dispatchToolCalls reg env choice.Message.ToolCalls
          (st.send.append choice.Message) with
      | Except.error (fault, st1) => Step.panic fault st1
      | Except.ok st1 => Step.next st1 := by
  simp [driverIteration, hex, hch, hfin]

theorem driverIteration_final (reg : String → Option (ToolFunction F)) (env : Env F X)
    (exchange : State F → RoundTrip) (st : State F) (resp : ChatCompletionResponse)
    (choice : ChatCompletionChoice) (rest : List ChatCompletionChoice)
    (hex : exchange st = RoundTrip.ok resp) (hch : resp.Choices = choice :: rest)
    (hfin : choice.FinishReason ≠ "tool_calls") :
    driverIteration reg env exchange st =
      Step.final ((st.send.append choice.Message).print
        ("Grok: " ++ choice.Message.Content ++ "\n")) := by
  simp [driverIteration, hex, hch, hfin]

theorem driverIteration_tool_state (reg : String → Option (ToolFunction F)) (env : Env F X)
    (exchange : State F → RoundTrip) (st : State F) (resp : ChatCompletionResponse)
    (choice : ChatCompletionChoice) (rest : List ChatCompletionChoice)
    (hex : exchange st = RoundTrip.ok resp) (hch : resp.Choices = choice :: rest)
    (hfin : choice.FinishReason = "tool_calls") :
    (driverIteration reg env exchange st).state =
      dispatchState (dispatchToolCalls reg env choice.Message.ToolCalls
        (st.send.append choice.Message)) := by
  rw [driverIteration_tool reg env exchange st resp choice rest hex hch hfin]
  cases dispatchToolCalls reg env choice.Message.ToolCalls (st.send.append choice.Message) with
  | ok st1 => rfl
  | error e => cases e; rfl

theorem driverIteration_messages (reg : String → Option (ToolFunction F)) (env : Env F X)
    (exchange : State F → RoundTrip) (st : State F) :
    st.messages <+: (driverIteration reg env exchange st).state.messages := by
  cases hex : exchange st with
  | ok resp =>
    cases hch : resp.Choices with
    | nil => simp [driverIteration, hex, hch, Step.state, State.send]
    | cons choice rest =>
      by_cases hfin : choice.FinishReason = "tool_calls"
      · rw [driverIteration_tool_state reg env exchange st resp choice rest hex hch hfin]
        refine List.IsPrefix.trans ?_ (dispatchToolCalls_messages reg env _ _)
        simp [State.send, State.append]
      · rw [driverIteration_final reg env exchange st resp choice rest hex hch hfin]
        simp [Step.state, State.send, State.append, State.print]
  | _ => simp [driverIteration, hex, Step.state, State.send, State.print]

theorem driverIteration_requestCount (env : Env F X) (exchange : State F → RoundTrip)
    (st : State F) :
    requestCount (driverIteration (toolFunctions env) env exchange st).state =
      requestCount st + (if (exchange st).sent = true then 1 else 0) := by
  cases hex : exchange st with
  | ok resp =>
    cases hch : resp.Choices with
    | nil => simp [driverIteration, hex, hch, Step.state, RoundTrip.sent]
    | cons choice rest =>
      by_cases hfin : choice.FinishReason = "tool_calls"
      · rw [driverIteration_tool_state _ env exchange st resp choice rest hex hch hfin]
        obtain ⟨es, htr, hn⟩ := dispatchToolCalls_trace env choice.Message.ToolCalls
          (st.send.append choice.Message)
        rw [requestCount_of_trace _ _ es htr hn]
        simp [RoundTrip.sent]
      · rw [driverIteration_final _ env exchange st resp choice rest hex hch hfin]
        simp [Step.state, RoundTrip.sent]
  | _ => simp [driverIteration, hex, Step.state, RoundTrip.sent]

theorem driverIteration_sends (env : Env F X) (exchange : State F → RoundTrip)
    (st : State F) (hsent : (exchange st).sent = true) :
    Event.request st.messages ∈
      (driverIteration (toolFunctions env) env exchange st).state.world.trace := by
  cases hex : exchange st with
  | ok resp =>
    cases hch : resp.Choices with
    | nil => simp [driverIteration, hex, hch, Step.state, State.send, World.log]
    | cons choice rest =>
      by_cases hfin : choice.FinishReason = "tool_calls"
      · rw [driverIteration_tool_state _ env exchange st resp choice rest hex hch hfin]
        obtain ⟨es, htr, _⟩ := dispatchToolCalls_trace env choice.Message.ToolCalls
          (st.send.append choice.Message)
        rw [htr]
        simp [State.send, State.append, World.log]
      · rw [driverIteration_final _ env exchange st resp choice rest hex hch hfin]
        simp [Step.state, State.send, State.append, State.print, World.log]
  | marshalError err => simp [hex, RoundTrip.sent] at hsent
  | createError err => simp [hex, RoundTrip.sent] at hsent
  | _ => simp [driverIteration, hex, Step.state, State.send, State.print, World.log]

theorem failed_of_not_sent (rt : RoundTrip) (h : rt.sent = false) : rt.failed = true := by
  cases rt <;> simp [RoundTrip.sent, RoundTrip.failed] at h ⊢

theorem driverIteration_failed (reg : String → Option (ToolFunction F)) (env : Env F X)
    (exchange : State F → RoundTrip) (st : State F) (hfail : (exchange st).failed = true) :
    ∃ text : String,
      driverIteration reg env exchange st =
        Step.abandoned
          { messages := st.messages,
            world :=
              { fs := st.world.fs,
                trace := st.world.trace ++
                  (if (exchange st).sent = true then [Event.request st.messages] else []) ++
                  [Event.printed text] } } := by
  cases hex : exchange st with
  | ok resp => simp [hex, RoundTrip.failed] at hfail
  | marshalError err =>
    exact ⟨"Error marshaling request: " ++ err ++ "\n", by
      simp [driverIteration, hex, RoundTrip.sent, State.print, World.log]⟩
  | createError err =>
    exact ⟨"Error creating request: " ++ err ++ "\n", by
      simp [driverIteration, hex, RoundTrip.sent, State.print, World.log]⟩
  | sendError err =>
    exact ⟨"Error sending request: " ++ err ++ "\n", by
      simp [driverIteration, hex, RoundTrip.sent, State.print, State.send, World.log]⟩
  | badStatus status body =>
    exact ⟨"Error: " ++ status ++ " " ++ body ++ "\n", by
      simp [driverIteration, hex, RoundTrip.sent, State.print, State.send, World.log]⟩
  | decodeError err =>
    exact ⟨"Error decoding response: " ++ err ++ "\n", by
      simp [driverIteration, hex, RoundTrip.sent, State.print, State.send, World.log]⟩

/-! ## The driver iteration -/

/-- C1, as amended: when the first choice of the response has finish reason
`tool_calls`, every requested name is a key of `toolFunctions` and no
requested `calculate` call makes `govaluate` panic, one driver iteration
appends the assistant message followed by exactly one tool-role message per
requested call, in request order; the i-th carries the identifier and the name
of the i-th call and, as content, what the binding returns for the decoded
arguments in the world the earlier calls of the batch left.  The loop does not
terminate but goes round again on the extended conversation: its next pass
sends a further request that carries it, unless marshalling or creating that
request fails, in which case the pass prints the error and leaves the loop with
the conversation unchanged and no request sent. -/
theorem tool_call_response_appends_results (env : Env F X)
    (exchange : State F → RoundTrip) (st : State F) (resp : ChatCompletionResponse)
    (choice : ChatCompletionChoice) (rest : List ChatCompletionChoice)
    (hex : exchange st = RoundTrip.ok resp) (hch : resp.Choices = choice :: rest)
    (hfin : choice.FinishReason = "tool_calls")
    (hreg : ∀ c ∈ choice.Message.ToolCalls,
      (toolFunctions env c.Function.Name).isSome = true)
    (hno : NoEvaluatorPanic env choice.Message.ToolCalls) :
    ∃ (st1 : State F) (toolMsgs : List ChatCompletionMessage),
      driverIteration (toolFunctions env) env exchange st = Step.next st1 ∧
      st1.messages = st.messages ++ choice.Message :: toolMsgs ∧
      toolMsgs.length = choice.Message.ToolCalls.length ∧
      (∀ (i : Nat) (c : ToolCall), choice.Message.ToolCalls[i]? = some c →
        ∃ (f : ToolFunction F) (sti : State F) (r : String × World F),
          toolFunctions env c.Function.Name = some f ∧
          dispatchToolCalls (toolFunctions env) env (choice.Message.ToolCalls.take i)
            (st.send.append choice.Message) = Except.ok sti ∧
          f (env.unmarshal c.Function.Arguments) sti.world = Except.ok r ∧
          toolMsgs[i]? = some
            { Role := "tool", ToolCallID := c.ID, Name := c.Function.Name,
              Content := r.1 }) ∧
      (∀ fuel : Nat, driverLoop (toolFunctions env) env exchange (fuel + 1) st =
        driverLoop (toolFunctions env) env exchange fuel st1) ∧
      ((exchange st1).sent = true →
        Event.request st1.messages ∈
          (driverIteration (toolFunctions env) env exchange st1).state.world.trace) ∧
      ((exchange st1).sent = false →
        ∃ text : String,
          driverIteration (toolFunctions env) env exchange st1 =
            Step.abandoned
              { messages := st1.messages,
                world := { fs := st1.world.fs,
                           trace := st1.world.trace ++ [Event.printed text] } }) := by
  obtain ⟨st1, toolMsgs, hrun, hmsgs, hlen, hpt⟩ :=
    dispatchToolCalls_ok (toolFunctions env) env choice.Message.ToolCalls
      (st.send.append choice.Message) hreg
      (bindings_return_of_noEvaluatorPanic env _ hno)
  have hstep : driverIteration (toolFunctions env) env exchange st = Step.next st1 := by
    rw [driverIteration_tool _ env exchange st resp choice rest hex hch hfin, hrun]
  refine ⟨st1, toolMsgs, hstep, ?_, hlen, hpt, ?_, ?_, ?_⟩
  · rw [hmsgs]
    simp [State.send, State.append]
  · intro fuel
    simp [driverLoop, hstep]
  · exact driverIteration_sends env exchange st1
  · intro hsent
    obtain ⟨text, habandon⟩ := driverIteration_failed (toolFunctions env) env exchange st1
      (failed_of_not_sent _ hsent)
    refine ⟨text, ?_⟩
    rw [habandon, hsent]
    simp

/-- On the stub evaluator no call of `demoCalls` panics. -/
theorem noEvaluatorPanic_demoCalls :
    NoEvaluatorPanic stubEnv demoToolChoice.Message.ToolCalls := by
  intro c hc hname m s hm hl
  have hc2 : c = demoCalls.get ⟨0, by decide⟩ ∨ c = demoCalls.get ⟨1, by decide⟩ := by
    simpa [demoToolChoice, demoCalls] using hc
  rcases hc2 with rfl | rfl
  · have hm2 : m = [("expression", JVal.str "2 + 2")] := by
      have : stubEnv.unmarshal "\x7b\"expression\": \"2 + 2\"\x7d" =
          some [("expression", JVal.str "2 + 2")] := rfl
      have hm3 : stubEnv.unmarshal "\x7b\"expression\": \"2 + 2\"\x7d" = some m := hm
      rw [this] at hm3
      exact (Option.some.inj hm3).symm
    subst hm2
    have hs : s = "2 + 2" := by
      have : List.lookup "expression" [("expression", JVal.str "2 + 2")] =
          some (JVal.str "2 + 2") := rfl
      rw [this] at hl
      injection hl with h1
      injection h1 with h2
      exact h2.symm
    subst hs
    rfl
  · exact absurd hname (by decide)

/-- C1, as amended, on the stub service: the batch `demoCalls` after the system
message. -/
theorem tool_call_response_appends_results_witness :
    (alwaysTools (initialState []) = RoundTrip.ok { Choices := [demoToolChoice] } ∧
      demoToolChoice.FinishReason = "tool_calls" ∧
      (∀ c ∈ demoToolChoice.Message.ToolCalls,
        (toolFunctions stubEnv c.Function.Name).isSome = true) ∧
      NoEvaluatorPanic stubEnv demoToolChoice.Message.ToolCalls) ∧
    ∃ (st1 : State MemFS) (toolMsgs : List ChatCompletionMessage),
      driverIteration (toolFunctions stubEnv) stubEnv alwaysTools (initialState [])
        = Step.next st1 ∧
      st1.messages = (initialState ([] : MemFS)).messages ++ demoToolChoice.Message :: toolMsgs ∧
      toolMsgs.length = demoToolChoice.Message.ToolCalls.length ∧
      (∀ fuel : Nat, driverLoop (toolFunctions stubEnv) stubEnv alwaysTools (fuel + 1)
          (initialState []) =
        driverLoop (toolFunctions stubEnv) stubEnv alwaysTools fuel st1) :=
  ⟨⟨rfl, rfl, by decide, noEvaluatorPanic_demoCalls⟩, by
    obtain ⟨st1, toolMsgs, h1, h2, h3, _, h5, _, _⟩ :=
      tool_call_response_appends_results stubEnv alwaysTools (initialState [])
        { Choices := [demoToolChoice] } demoToolChoice [] rfl rfl rfl (by decide)
        noEvaluatorPanic_demoCalls
    exact ⟨st1, toolMsgs, h1, h2, h3, h5⟩⟩

/-- C1 as stated fails at two inputs.  After a batch of registered tools was
resolved, a request that cannot be marshalled makes the next pass leave the
loop: the resolution is abandoned and the one request sent is the first, so no
further request is issued.  And a registered `calculate` call on `x + 1`, on
which the evaluator panics, ends the iteration in a panic with the assistant
message appended and no tool-role message. -/
theorem further_request_not_always_issued :
    (toolsThenMarshalError (initialState []) = RoundTrip.ok { Choices := [demoToolChoice] } ∧
      demoToolChoice.FinishReason = "tool_calls" ∧
      (∀ c ∈ demoToolChoice.Message.ToolCalls,
        (toolFunctions stubEnv c.Function.Name).isSome = true)) ∧
    (driverLoop (toolFunctions stubEnv) stubEnv toolsThenMarshalError 5
      (initialState [])).isAbandoned = true ∧
    requestCount (driverLoop (toolFunctions stubEnv) stubEnv toolsThenMarshalError 5
      (initialState [])).state = 1 ∧
    (alwaysVariable (initialState []) = RoundTrip.ok { Choices := [demoVariableChoice] } ∧
      demoVariableChoice.FinishReason = "tool_calls" ∧
      (∀ c ∈ demoVariableChoice.Message.ToolCalls,
        (toolFunctions stubEnv c.Function.Name).isSome = true)) ∧
    (driverIteration (toolFunctions stubEnv) stubEnv alwaysVariable
      (initialState [])).fault = some Fault.libraryPanic ∧
    (driverIteration (toolFunctions stubEnv) stubEnv alwaysVariable
      (initialState [])).state.messages = initialMessages ++ [demoVariableChoice.Message] :=
  ⟨⟨rfl, rfl, by decide⟩, rfl, rfl, ⟨rfl, rfl, by decide⟩, rfl, rfl⟩

/-- C2 at the failing input: for every environment and every state, a response
whose only tool call names `delete_file`, which is not a key of
`toolFunctions`, makes the driver iteration panic on the call of a nil function
value, right after the assistant message was appended: no tool-role message is
appended for `call_9`, and the session iteration ends in the crash. -/
theorem unknown_tool_call_panics (env : Env F X) (st : State F) (fuel : Nat) :
    toolFunctions env "delete_file" = none ∧
    driverIteration (toolFunctions env) env
        (fun _ => RoundTrip.ok { Choices := [demoUnknownChoice] }) st
      = Step.panic Fault.nilFunctionCall (st.send.append demoUnknownChoice.Message) ∧
    sessionIteration (toolFunctions env) env
        (fun _ => RoundTrip.ok { Choices := [demoUnknownChoice] }) (fuel + 1) st
        { input := "clean up\n" }
      = SessionStep.crashed Fault.nilFunctionCall
          ((((st.print "You: ").append { Role := "user", Content := "clean up" }).send).append
            demoUnknownChoice.Message) := by
  have h0 : toolFunctions env "delete_file" = none := by
    simp [toolFunctions]
  have h1 : ∀ s : State F, driverIteration (toolFunctions env) env
        (fun _ => RoundTrip.ok { Choices := [demoUnknownChoice] }) s
      = Step.panic Fault.nilFunctionCall (s.send.append demoUnknownChoice.Message) := by
    intro s
    simp [driverIteration, demoUnknownChoice, dispatchToolCalls, h0]
  refine ⟨h0, h1 st, ?_⟩
  have ht : trimSpace "clean up\n" = "clean up" := by decide
  simp [sessionIteration, ht, driverLoop, h1]

/-- C4: when the first choice of the response does not have finish reason
`tool_calls`, one driver iteration, whatever the registry is, sends the one
request, appends exactly the choice's message, prints its content after the
`Grok:` label and leaves the loop: the file system is untouched, no binding
runs, and the resolution is terminal for every fuel. -/
theorem final_response_appended (reg : String → Option (ToolFunction F)) (env : Env F X)
    (exchange : State F → RoundTrip) (st : State F) (resp : ChatCompletionResponse)
    (choice : ChatCompletionChoice) (rest : List ChatCompletionChoice)
    (hex : exchange st = RoundTrip.ok resp) (hch : resp.Choices = choice :: rest)
    (hfin : choice.FinishReason ≠ "tool_calls") :
    driverIteration reg env exchange st =
      Step.final
        { messages := st.messages ++ [choice.Message],
          world :=
            { fs := st.world.fs,
              trace := st.world.trace ++
                [Event.request st.messages,
                 Event.printed ("Grok: " ++ choice.Message.Content ++ "\n")] } } ∧
    ∀ fuel : Nat, driverLoop reg env exchange (fuel + 1) st =
      Resolution.terminal
        { messages := st.messages ++ [choice.Message],
          world :=
            { fs := st.world.fs,
              trace := st.world.trace ++
                [Event.request st.messages,
                 Event.printed ("Grok: " ++ choice.Message.Content ++ "\n")] } } := by
  have hstep := driverIteration_final reg env exchange st resp choice rest hex hch hfin
  have hst : (st.send.append choice.Message).print ("Grok: " ++ choice.Message.Content ++ "\n")
      = { messages := st.messages ++ [choice.Message],
          world :=
            { fs := st.world.fs,
              trace := st.world.trace ++
                [Event.request st.messages,
                 Event.printed ("Grok: " ++ choice.Message.Content ++ "\n")] } } := by
    simp [State.send, State.append, State.print, World.log]
  rw [hst] at hstep
  refine ⟨hstep, ?_⟩
  intro fuel
  simp [driverLoop, hstep]

/-- C4 on a stub service that answers finally, with an empty registry. -/
theorem final_response_appended_witness :
    demoFinalChoice.FinishReason ≠ "tool_calls" ∧
    driverIteration (fun _ => none) stubEnv (toolsThenFinal 0) (initialState []) =
      Step.final
        { messages := initialMessages ++ [demoFinalChoice.Message],
          world :=
            { fs := [],
              trace := (initialState ([] : MemFS)).world.trace ++
                [Event.request initialMessages,
                 Event.printed ("Grok: " ++ "The result is 4." ++ "\n")] } } :=
  ⟨by decide,
    (final_response_appended (fun _ => none) stubEnv (toolsThenFinal 0) (initialState [])
      { Choices := [demoFinalChoice] } demoFinalChoice [] rfl rfl (by decide)).1⟩

/-- C10, as amended: on a decoded response, one driver iteration does not panic
exactly when the response has a first choice and, if that choice has finish
reason `tool_calls`, every requested name is a key of `toolFunctions` and no
requested `calculate` call carries a string expression on which `govaluate`
panics; and the outcome depends on the response through its first choice
only. -/
theorem iteration_fault_free_iff (env : Env F X) (exchange : State F → RoundTrip)
    (st : State F) (resp : ChatCompletionResponse) (hex : exchange st = RoundTrip.ok resp) :
    ((∀ (fault : Fault) (st1 : State F),
        driverIteration (toolFunctions env) env exchange st ≠ Step.panic fault st1) ↔
      (resp.Choices ≠ [] ∧
        ∀ choice ∈ resp.Choices.head?, choice.FinishReason = "tool_calls" →
          (∀ c ∈ choice.Message.ToolCalls,
            (toolFunctions env c.Function.Name).isSome = true) ∧
          NoEvaluatorPanic env choice.Message.ToolCalls)) ∧
    (∀ (exchange2 : State F → RoundTrip) (resp2 : ChatCompletionResponse),
      exchange2 st = RoundTrip.ok resp2 → resp2.Choices.head? = resp.Choices.head? →
      driverIteration (toolFunctions env) env exchange2 st =
        driverIteration (toolFunctions env) env exchange st) := by
  constructor
  · cases hch : resp.Choices with
    | nil =>
      have hstep : driverIteration (toolFunctions env) env exchange st =
          Step.panic Fault.indexOutOfRange st.send := by
        simp [driverIteration, hex, hch]
      constructor
      · intro h
        exact absurd hstep (h _ _)
      · intro h
        exact absurd rfl h.1
    | cons choice rest =>
      by_cases hfin : choice.FinishReason = "tool_calls"
      · have hstep := driverIteration_tool (toolFunctions env) env exchange st resp choice rest
          hex hch hfin
        have hiff := dispatchToolCalls_ok_iff env
          choice.Message.ToolCalls (st.send.append choice.Message)
        constructor
        · intro h
          refine ⟨by simp, ?_⟩
          intro ch hmem _
          have hce : ch = choice := by simpa using hmem.symm
          subst hce
          apply hiff.mp
          cases hd : dispatchToolCalls (toolFunctions env) env ch.Message.ToolCalls
              (st.send.append ch.Message) with
          | ok st1 => exact ⟨st1, rfl⟩
          | error e =>
            obtain ⟨fault, st1⟩ := e
            rw [hd] at hstep
            exact absurd hstep (h fault st1)
        · intro h fault st1 hp
          obtain ⟨st2, hok⟩ := hiff.mpr (h.2 choice (by simp) hfin)
          rw [hstep, hok] at hp
          cases hp
      · have hstep := driverIteration_final (toolFunctions env) env exchange st resp choice rest
          hex hch hfin
        constructor
        · intro _
          refine ⟨by simp, ?_⟩
          intro ch hmem hf
          have hce : ch = choice := by simpa using hmem.symm
          subst hce
          exact absurd hf hfin
        · intro _ fault st1 hp
          rw [hstep] at hp
          cases hp
  · intro exchange2 resp2 hex2 hhead
    cases hch : resp.Choices with
    | nil =>
      rw [hch] at hhead
      have hch2 : resp2.Choices = [] := by simpa using hhead
      simp [driverIteration, hex, hex2, hch, hch2]
    | cons choice rest =>
      rw [hch] at hhead
      cases hch2 : resp2.Choices with
      | nil => rw [hch2] at hhead; simp at hhead
      | cons choice2 rest2 =>
        rw [hch2] at hhead
        have hce : choice2 = choice := by simpa using hhead
        subst hce
        simp [driverIteration, hex, hex2, hch, hch2]

/-- C10, as amended, on two stub responses that share the first choice
`demoToolChoice`. -/
theorem iteration_fault_free_iff_witness :
    alwaysTools (initialState []) = RoundTrip.ok { Choices := [demoToolChoice] } ∧
    (∀ (fault : Fault) (st1 : State MemFS),
      driverIteration (toolFunctions stubEnv) stubEnv alwaysTools (initialState [])
        ≠ Step.panic fault st1) ∧
    driverIteration (toolFunctions stubEnv) stubEnv
        (fun _ => RoundTrip.ok { ID := "r2", Choices := [demoToolChoice, demoFinalChoice] })
        (initialState [])
      = driverIteration (toolFunctions stubEnv) stubEnv alwaysTools (initialState []) :=
  ⟨rfl,
    (iteration_fault_free_iff stubEnv alwaysTools (initialState [])
      { Choices := [demoToolChoice] } rfl).1.mpr
      ⟨by decide, fun ch hmem _ => by
        have hce : ch = demoToolChoice := by simpa using hmem.symm
        subst hce
        exact ⟨by decide, noEvaluatorPanic_demoCalls⟩⟩,
    (iteration_fault_free_iff stubEnv alwaysTools (initialState [])
      { Choices := [demoToolChoice] } rfl).2
      (fun _ => RoundTrip.ok { ID := "r2", Choices := [demoToolChoice, demoFinalChoice] })
      { ID := "r2", Choices := [demoToolChoice, demoFinalChoice] } rfl rfl⟩

/-- C10 as stated fails: the response has a first choice, its finish reason is
`tool_calls` and both requested names, `calculate` and `write_file`, are keys
of `toolFunctions`, yet the iteration panics, inside the evaluation of
`x + 1`. -/
theorem registered_batch_can_panic :
    alwaysVariable (initialState []) = RoundTrip.ok { Choices := [demoVariableChoice] } ∧
    [demoVariableChoice] ≠ [] ∧
    demoVariableChoice.FinishReason = "tool_calls" ∧
    (∀ c ∈ demoVariableChoice.Message.ToolCalls,
      (toolFunctions stubEnv c.Function.Name).isSome = true) ∧
    driverIteration (toolFunctions stubEnv) stubEnv alwaysVariable (initialState []) =
      Step.panic Fault.libraryPanic
        { messages := initialMessages ++ [demoVariableChoice.Message],
          world :=
            { fs := [],
              trace := (initialState ([] : MemFS)).world.trace ++
                [Event.request initialMessages, Event.evaluated "x + 1"] } } :=
  ⟨rfl, by decide, rfl, by decide, rfl⟩

/-! ## The driver loop and the session loop -/

theorem driverLoop_add (reg : String → Option (ToolFunction F)) (env : Env F X)
    (exchange : State F → RoundTrip) (m : Nat) :
    ∀ (n : Nat) (st s : State F),
      driverLoop reg env exchange n st = Resolution.running s →
      driverLoop reg env exchange (n + m) st = driverLoop reg env exchange m s := by
  intro n
  induction n with
  | zero =>
    intro st s h
    simp only [driverLoop, Resolution.running.injEq] at h
    subst h
    simp
  | succ n ih =>
    intro st s h
    rw [Nat.add_right_comm]
    simp only [driverLoop] at h ⊢
    cases hstep : driverIteration reg env exchange st with
    | next st1 =>
      rw [hstep] at h
      exact ih st1 s h
    | final st1 => rw [hstep] at h; cases h
    | abandoned st1 => rw [hstep] at h; cases h
    | panic fault st1 => rw [hstep] at h; cases h

theorem driverLoop_messages (reg : String → Option (ToolFunction F)) (env : Env F X)
    (exchange : State F → RoundTrip) :
    ∀ (fuel : Nat) (st : State F),
      st.messages <+: (driverLoop reg env exchange fuel st).state.messages := by
  intro fuel
  induction fuel with
  | zero => intro st; simp [driverLoop, Resolution.state]
  | succ n ih =>
    intro st
    have hstep := driverIteration_messages reg env exchange st
    simp only [driverLoop]
    cases hd : driverIteration reg env exchange st with
    | next st1 =>
      rw [hd] at hstep
      exact List.IsPrefix.trans hstep (ih st1)
    | final st1 => rw [hd] at hstep; exact hstep
    | abandoned st1 => rw [hd] at hstep; exact hstep
    | panic fault st1 => rw [hd] at hstep; exact hstep

theorem sessionIteration_messages (reg : String → Option (ToolFunction F)) (env : Env F X)
    (exchange : State F → RoundTrip) (fuel : Nat) (st : State F) (read : ReadResult) :
    st.messages <+: (sessionIteration reg env exchange fuel st read).state.messages := by
  unfold sessionIteration
  cases read.err with
  | some err => simp [SessionStep.state, State.print]
  | none =>
    dsimp only
    split_ifs with hexit
    · simp [SessionStep.state, State.print]
    · have h := driverLoop_messages reg env exchange fuel
        ((st.print "You: ").append { Role := "user", Content := trimSpace read.input })
      have h0 : st.messages <+:
          ((st.print "You: ").append
            { Role := "user", Content := trimSpace read.input }).messages := by
        simp [State.print, State.append]
      have h1 := List.IsPrefix.trans h0 h
      cases hd : driverLoop reg env exchange fuel
          ((st.print "You: ").append { Role := "user", Content := trimSpace read.input }) with
      | running s => rw [hd] at h1; exact h1
      | terminal s => rw [hd] at h1; exact h1
      | abandoned s => rw [hd] at h1; exact h1
      | crashed fault s => rw [hd] at h1; exact h1

theorem session_messages (reg : String → Option (ToolFunction F)) (env : Env F X)
    (exchange : State F → RoundTrip) (fuel : Nat) :
    ∀ (reads : List ReadResult) (st : State F),
      st.messages <+: (session reg env exchange fuel reads st).state.messages := by
  intro reads
  induction reads with
  | nil => intro st; simp [session, SessionStep.state]
  | cons read rest ih =>
    intro st
    have hstep := sessionIteration_messages reg env exchange fuel st read
    simp only [session]
    cases hd : sessionIteration reg env exchange fuel st read with
    | prompt st1 =>
      rw [hd] at hstep
      exact List.IsPrefix.trans hstep (ih st1)
    | ended st1 => rw [hd] at hstep; exact hstep
    | crashed fault st1 => rw [hd] at hstep; exact hstep
    | running st1 => rw [hd] at hstep; exact hstep

theorem head?_of_prefix {α : Type} (l1 l2 : List α) (x : α) (hp : l1 <+: l2)
    (hx : l1.head? = some x) : l2.head? = some x := by
  obtain ⟨t, rfl⟩ := hp
  cases l1 with
  | nil => simp at hx
  | cons a l => simpa using hx

/-- C7: the conversation is append-only.  Across one driver iteration, the
driver loop, one session iteration and the whole session, whatever the
registry, the service and the input are and however the step ends, the
conversation before is a prefix of the conversation after; and from the initial
state on, the first message is the system message of lines 135-137. -/
theorem conversation_append_only (reg : String → Option (ToolFunction F)) (env : Env F X)
    (exchange : State F → RoundTrip) (fuel : Nat) (st : State F) (read : ReadResult)
    (reads : List ReadResult) (fs : F) :
    st.messages <+: (driverIteration reg env exchange st).state.messages ∧
    st.messages <+: (driverLoop reg env exchange fuel st).state.messages ∧
    st.messages <+: (sessionIteration reg env exchange fuel st read).state.messages ∧
    st.messages <+: (session reg env exchange fuel reads st).state.messages ∧
    (initialState fs).messages =
      [{ Role := "system", Content := "You are a helpful AI agent." }] ∧
    (session reg env exchange fuel reads (initialState fs)).state.messages.head? =
      some { Role := "system", Content := "You are a helpful AI agent." } :=
  ⟨driverIteration_messages reg env exchange st,
    driverLoop_messages reg env exchange fuel st,
    sessionIteration_messages reg env exchange fuel st read,
    session_messages reg env exchange fuel reads st,
    rfl,
    head?_of_prefix _ _ _ (session_messages reg env exchange fuel reads (initialState fs)) rfl⟩

/-- C5: let the driver loop, started on the user message of a line that is not
`exit`, have made `n` iterations and stand at state `st`, and let the
round-trip built from `st` fail (marshalling, creation, send, status or
decoding).  Then the loop is left at once, for every remaining fuel: the
conversation is that of `st`, which extends the conversation with the user
message; the file system is that of `st`; the trace gains at most the one
request that failed and one printed report; and the session iteration ends at
the next prompt. -/
theorem failed_round_trip_abandons (env : Env F X) (exchange : State F → RoundTrip)
    (stp st : State F) (read : ReadResult) (n m : Nat)
    (herr : read.err = none) (hne : trimSpace read.input ≠ "exit")
    (hrun : driverLoop (toolFunctions env) env exchange n
      ((stp.print "You: ").append { Role := "user", Content := trimSpace read.input })
        = Resolution.running st)
    (hfail : (exchange st).failed = true) :
    ∃ (text : String) (st1 : State F),
      driverIteration (toolFunctions env) env exchange st = Step.abandoned st1 ∧
      driverLoop (toolFunctions env) env exchange (n + (m + 1))
        ((stp.print "You: ").append { Role := "user", Content := trimSpace read.input })
          = Resolution.abandoned st1 ∧
      sessionIteration (toolFunctions env) env exchange (n + (m + 1)) stp read
        = SessionStep.prompt st1 ∧
      st1.messages = st.messages ∧
      stp.messages ++ [{ Role := "user", Content := trimSpace read.input }] <+: st1.messages ∧
      st1.world.fs = st.world.fs ∧
      st1.world.trace = st.world.trace ++
        (if (exchange st).sent = true then [Event.request st.messages] else []) ++
        [Event.printed text] ∧
      requestCount st1 ≤ requestCount st + 1 := by
  obtain ⟨text, hstep⟩ := driverIteration_failed (toolFunctions env) env exchange st hfail
  have hloop := driverLoop_add (toolFunctions env) env exchange (m + 1) n _ st hrun
  have hone : driverLoop (toolFunctions env) env exchange (m + 1) st =
      Resolution.abandoned
        { messages := st.messages,
          world :=
            { fs := st.world.fs,
              trace := st.world.trace ++
                (if (exchange st).sent = true then [Event.request st.messages] else []) ++
                [Event.printed text] } } := by
    simp only [driverLoop, hstep]
  rw [hone] at hloop
  have hpre := driverLoop_messages (toolFunctions env) env exchange n
    ((stp.print "You: ").append { Role := "user", Content := trimSpace read.input })
  rw [hrun] at hpre
  have hcount := driverIteration_requestCount env exchange st
  rw [hstep] at hcount
  refine ⟨text, _, hstep, hloop, ?_, rfl, ?_, rfl, rfl, ?_⟩
  · simp only [sessionIteration, herr, hne, if_false, hloop]
  · simpa [State.print, State.append, Resolution.state] using hpre
  · simp only [Step.state] at hcount
    rw [hcount]
    split_ifs <;> omega

/-- C5 on a stub service that requests tools once and then answers 503. -/
theorem failed_round_trip_abandons_witness :
    (trimSpace "what is 2 + 2?\n" ≠ "exit" ∧
      (toolsThenDown (driverLoop (toolFunctions stubEnv) stubEnv toolsThenDown 1
        (((initialState []).print "You: ").append
          { Role := "user", Content := trimSpace "what is 2 + 2?\n" })).state).failed = true) ∧
    ∃ (text : String) (st1 : State MemFS),
      sessionIteration (toolFunctions stubEnv) stubEnv toolsThenDown (1 + (3 + 1))
        (initialState []) { input := "what is 2 + 2?\n" } = SessionStep.prompt st1 ∧
      st1.messages = (driverLoop (toolFunctions stubEnv) stubEnv toolsThenDown 1
        (((initialState []).print "You: ").append
          { Role := "user", Content := trimSpace "what is 2 + 2?\n" })).state.messages ∧
      st1.world.trace.getLast? = some (Event.printed text) :=
  ⟨⟨by decide, rfl⟩, by
    obtain ⟨text, st1, _, _, hs, hm, _, _, ht, _⟩ :=
      failed_round_trip_abandons stubEnv toolsThenDown (initialState [])
        (driverLoop (toolFunctions stubEnv) stubEnv toolsThenDown 1
          (((initialState []).print "You: ").append
            { Role := "user", Content := trimSpace "what is 2 + 2?\n" })).state
        { input := "what is 2 + 2?\n" } 1 3 rfl (by decide) rfl rfl
    exact ⟨text, st1, hs, hm, by rw [ht]; simp⟩⟩

/-- C6, as amended: a line read without error ends the session loop exactly
when, with surrounding white space trimmed, it is the string `exit`.  The loop
then stops right after the prompt, with the conversation, the file system and
the number of requests as they were; any other line is appended, trimmed, as a
user message to the conversation before the driver loop starts, and stays
there.  A read that returns an error never ends the loop, whatever its text:
the error is printed, the conversation is unchanged and no request is sent.
So `  exit ` as first input ends the session with the initial conversation and
no request, while `EXIT` and `exit now` are appended as user messages. -/
theorem exit_ends_session (reg : String → Option (ToolFunction F)) (env : Env F X)
    (exchange : State F → RoundTrip) (fuel : Nat) (st : State F) (line err : String)
    (fs : F) :
    ((∃ st1, sessionIteration reg env exchange fuel st { input := line }
        = SessionStep.ended st1) ↔ trimSpace line = "exit") ∧
    (trimSpace line = "exit" →
      sessionIteration reg env exchange fuel st { input := line }
        = SessionStep.ended
            { messages := st.messages,
              world := { fs := st.world.fs,
                         trace := st.world.trace ++ [Event.printed "You: "] } } ∧
      requestCount
          ({ messages := st.messages,
             world := { fs := st.world.fs,
                        trace := st.world.trace ++ [Event.printed "You: "] } } : State F)
        = requestCount st) ∧
    (trimSpace line ≠ "exit" →
      sessionIteration reg env exchange 0 st { input := line }
        = SessionStep.running
            { messages := st.messages ++ [{ Role := "user", Content := trimSpace line }],
              world := { fs := st.world.fs,
                         trace := st.world.trace ++ [Event.printed "You: "] } } ∧
      st.messages ++ [{ Role := "user", Content := trimSpace line }] <+:
        (sessionIteration reg env exchange fuel st { input := line }).state.messages) ∧
    (sessionIteration reg env exchange fuel st { input := line, err := some err }
        = SessionStep.prompt
            { messages := st.messages,
              world := { fs := st.world.fs,
                         trace := st.world.trace ++
                           [Event.printed "You: ", Event.printed (err ++ "\n")] } } ∧
      requestCount
          ({ messages := st.messages,
             world := { fs := st.world.fs,
                        trace := st.world.trace ++
                          [Event.printed "You: ", Event.printed (err ++ "\n")] } } : State F)
        = requestCount st) ∧
    (∃ st1, session reg env exchange fuel [{ input := "  exit \n" }] (initialState fs)
        = SessionStep.ended st1 ∧
      st1.messages = [{ Role := "system", Content := "You are a helpful AI agent." }] ∧
      requestCount st1 = 0) ∧
    sessionIteration reg env exchange 0 st { input := "EXIT\n" }
      = SessionStep.running
          { messages := st.messages ++ [{ Role := "user", Content := "EXIT" }],
            world := { fs := st.world.fs,
                       trace := st.world.trace ++ [Event.printed "You: "] } } ∧
    sessionIteration reg env exchange 0 st { input := "exit now\n" }
      = SessionStep.running
          { messages := st.messages ++ [{ Role := "user", Content := "exit now" }],
            world := { fs := st.world.fs,
                       trace := st.world.trace ++ [Event.printed "You: "] } } := by
  have hyes : ∀ (s : State F) (l : String) (k : Nat), trimSpace l = "exit" →
      sessionIteration reg env exchange k s { input := l }
        = SessionStep.ended
            { messages := s.messages,
              world := { fs := s.world.fs,
                         trace := s.world.trace ++ [Event.printed "You: "] } } := by
    intro s l k h
    simp [sessionIteration, h, State.print, World.log]
  have hno : ∀ (s : State F) (l : String), trimSpace l ≠ "exit" →
      sessionIteration reg env exchange 0 s { input := l }
        = SessionStep.running
            { messages := s.messages ++ [{ Role := "user", Content := trimSpace l }],
              world := { fs := s.world.fs,
                         trace := s.world.trace ++ [Event.printed "You: "] } } := by
    intro s l h
    simp [sessionIteration, h, driverLoop, State.print, State.append, World.log]
  have hcount : ∀ (s : State F) (es : List Event), (∀ e ∈ es, e.isRequest = false) →
      requestCount ({ messages := s.messages,
                      world := { fs := s.world.fs, trace := s.world.trace ++ es } } : State F)
        = requestCount s := by
    intro s es hes
    exact requestCount_of_trace s _ es rfl hes
  refine ⟨⟨?_, fun h => ⟨_, hyes st line fuel h⟩⟩, ?_, ?_, ⟨?_, ?_⟩, ?_, ?_, ?_⟩
  · intro ⟨st1, h⟩
    by_contra hne
    simp only [sessionIteration, hne, if_false] at h
    cases hd : driverLoop reg env exchange fuel
        ((st.print "You: ").append { Role := "user", Content := trimSpace line }) with
    | running s => rw [hd] at h; cases h
    | terminal s => rw [hd] at h; cases h
    | abandoned s => rw [hd] at h; cases h
    | crashed fault s => rw [hd] at h; cases h
  · intro h
    exact ⟨hyes st line fuel h, hcount st _ (by simp [Event.isRequest])⟩
  · intro hne
    refine ⟨hno st line hne, ?_⟩
    have h := driverLoop_messages reg env exchange fuel
      ((st.print "You: ").append { Role := "user", Content := trimSpace line })
    simp only [sessionIteration, hne, if_false]
    cases hd : driverLoop reg env exchange fuel
        ((st.print "You: ").append { Role := "user", Content := trimSpace line }) with
    | running s => rw [hd] at h; simpa [State.print, State.append] using h
    | terminal s => rw [hd] at h; simpa [State.print, State.append] using h
    | abandoned s => rw [hd] at h; simpa [State.print, State.append] using h
    | crashed fault s => rw [hd] at h; simpa [State.print, State.append] using h
  · simp [sessionIteration, State.print, World.log]
  · exact hcount st _ (by simp [Event.isRequest])
  · refine ⟨{ messages := (initialState fs).messages,
               world := { fs := (initialState fs).world.fs,
                          trace := (initialState fs).world.trace ++
                            [Event.printed "You: "] } }, ?_, rfl, ?_⟩
    · simp only [session, hyes (initialState fs) "  exit \n" fuel (by decide)]
    · simp [initialState, requestCount, State.print, World.log, Event.isRequest]
  · have h := hno st "EXIT\n" (by decide)
    have ht : trimSpace "EXIT\n" = "EXIT" := by decide
    rw [ht] at h
    exact h
  · have h := hno st "exit now\n" (by decide)
    have ht : trimSpace "exit now\n" = "exit now" := by decide
    rw [ht] at h
    exact h

/-- C6, as amended, on the line `exit` between tabs, with the stub service. -/
theorem exit_ends_session_witness :
    trimSpace "\texit\t\n" = "exit" ∧
    sessionIteration (toolFunctions stubEnv) stubEnv alwaysTools 7 (initialState [])
        { input := "\texit\t\n" }
      = SessionStep.ended
          { messages := (initialState ([] : MemFS)).messages,
            world := { fs := [],
                       trace := (initialState ([] : MemFS)).world.trace ++
                         [Event.printed "You: "] } } :=
  ⟨by decide,
    ((exit_ends_session (toolFunctions stubEnv) stubEnv alwaysTools 7 (initialState [])
      "\texit\t\n" "EOF" []).2.1 (by decide)).1⟩

/-- C6 as stated fails on a last line `exit` that no newline ends:
`ReadString` returns it together with `io.EOF`, the text trims to `exit`, and
yet the session loop does not end: it prints the error and prompts again, on
this read and on every later one. -/
theorem exit_at_end_of_input_does_not_end :
    trimSpace "exit" = "exit" ∧
    (sessionIteration (toolFunctions stubEnv) stubEnv alwaysTools 3 (initialState [])
      { input := "exit", err := some "EOF" }).isEnded = false ∧
    sessionIteration (toolFunctions stubEnv) stubEnv alwaysTools 3 (initialState [])
        { input := "exit", err := some "EOF" }
      = SessionStep.prompt
          { messages := initialMessages,
            world := { fs := [],
                       trace := (initialState ([] : MemFS)).world.trace ++
                         [Event.printed "You: ", Event.printed "EOF\n"] } } ∧
    (session (toolFunctions stubEnv) stubEnv alwaysTools 3
      [{ input := "exit", err := some "EOF" }, { input := "", err := some "EOF" },
       { input := "", err := some "EOF" }] (initialState [])).isEnded = false :=
  ⟨by decide, rfl, rfl, rfl⟩

theorem driverIteration_of_requestsReturningTools (env : Env F X)
    (exchange : State F → RoundTrip) (s : State F)
    (h : RequestsReturningTools env exchange s) :
    ∃ s1 : State F, driverIteration (toolFunctions env) env exchange s = Step.next s1 ∧
      requestCount s1 = requestCount s + 1 := by
  obtain ⟨resp, choice, rest, hex, hch, hfin, hreg, hno⟩ := h
  obtain ⟨s1, _, hrun, _⟩ := dispatchToolCalls_ok (toolFunctions env) env
    choice.Message.ToolCalls (s.send.append choice.Message) hreg
    (bindings_return_of_noEvaluatorPanic env _ hno)
  have hstep : driverIteration (toolFunctions env) env exchange s = Step.next s1 := by
    rw [driverIteration_tool _ env exchange s resp choice rest hex hch hfin, hrun]
  have hcount := driverIteration_requestCount env exchange s
  rw [hstep, hex] at hcount
  exact ⟨s1, hstep, by simpa [Step.state, RoundTrip.sent] using hcount⟩

theorem driverLoop_while_tools (env : Env F X) (exchange : State F → RoundTrip)
    (st : State F) (k : Nat)
    (htools : ∀ (n : Nat) (s : State F),
      driverLoop (toolFunctions env) env exchange n st = Resolution.running s →
      n < k → RequestsReturningTools env exchange s) :
    ∀ n : Nat, n ≤ k → ∃ s : State F,
      driverLoop (toolFunctions env) env exchange n st = Resolution.running s ∧
      requestCount s = requestCount st + n := by
  intro n
  induction n with
  | zero => intro _; exact ⟨st, rfl, rfl⟩
  | succ n ih =>
    intro hn
    obtain ⟨s, hrun, hcount⟩ := ih (by omega)
    obtain ⟨s1, hstep, hc1⟩ :=
      driverIteration_of_requestsReturningTools env exchange s (htools n s hrun (by omega))
    refine ⟨s1, ?_, by omega⟩
    rw [driverLoop_add (toolFunctions env) env exchange 1 n st s hrun]
    simp [driverLoop, hstep]

/-- The driver loop has no iteration cap as long as no binding panics.  If
every response the service gives during the resolution requests registered
tools on which the evaluator does not panic, then after any number `n` of
iterations the loop is still running and has sent `n` requests.  If the first
`k` responses do so and the next one is final, the loop is terminal for every
fuel above `k` and has sent exactly `k + 1` requests. -/
theorem driverLoop_no_cap_while_bindings_return (env : Env F X)
    (exchange : State F → RoundTrip) (st : State F) :
    ((∀ (n : Nat) (s : State F),
        driverLoop (toolFunctions env) env exchange n st = Resolution.running s →
        RequestsReturningTools env exchange s) →
      ∀ n : Nat, ∃ s : State F,
        driverLoop (toolFunctions env) env exchange n st = Resolution.running s ∧
        requestCount s = requestCount st + n) ∧
    (∀ k : Nat,
      (∀ (n : Nat) (s : State F),
        driverLoop (toolFunctions env) env exchange n st = Resolution.running s →
        (n < k → RequestsReturningTools env exchange s) ∧
        (n = k → AnswersFinally exchange s)) →
      ∀ fuel : Nat, k + 1 ≤ fuel → ∃ s : State F,
        driverLoop (toolFunctions env) env exchange fuel st = Resolution.terminal s ∧
        requestCount s = requestCount st + (k + 1)) := by
  constructor
  · intro hall n
    exact driverLoop_while_tools env exchange st n (fun i s hrun _ => hall i s hrun) n
      (Nat.le_refl n)
  · intro k hk fuel hfuel
    obtain ⟨s, hrun, hcount⟩ := driverLoop_while_tools env exchange st k
      (fun i s hrun hlt => (hk i s hrun).1 hlt) k (Nat.le_refl k)
    obtain ⟨resp, choice, rest, hex, hch, hfin⟩ := (hk k s hrun).2 rfl
    have hstep := driverIteration_final (toolFunctions env) env exchange s resp choice rest
      hex hch hfin
    obtain ⟨m, rfl⟩ : ∃ m, fuel = k + (m + 1) := ⟨fuel - k - 1, by omega⟩
    refine ⟨(s.send.append choice.Message).print
      ("Grok: " ++ choice.Message.Content ++ "\n"), ?_, ?_⟩
    · rw [driverLoop_add (toolFunctions env) env exchange (m + 1) k st s hrun]
      simp only [driverLoop, hstep]
    · simp [hcount]
      omega

/-- On the stub services `alwaysTools` and `toolsThenFinal 1` the loop runs on
without end, respectively ends after two requests. -/
theorem driverLoop_no_cap_on_stub :
    (∀ n : Nat, ∃ s : State MemFS,
      driverLoop (toolFunctions stubEnv) stubEnv alwaysTools n (initialState [])
        = Resolution.running s ∧
      requestCount s = requestCount (initialState ([] : MemFS)) + n) ∧
    (∀ fuel : Nat, 1 + 1 ≤ fuel → ∃ s : State MemFS,
      driverLoop (toolFunctions stubEnv) stubEnv (toolsThenFinal 1) fuel (initialState [])
        = Resolution.terminal s ∧
      requestCount s = requestCount (initialState ([] : MemFS)) + (1 + 1)) :=
  ⟨(driverLoop_no_cap_while_bindings_return stubEnv alwaysTools (initialState [])).1
      (fun _ _ _ => ⟨_, demoToolChoice, [], rfl, rfl, rfl, by decide,
        noEvaluatorPanic_demoCalls⟩),
    (driverLoop_no_cap_while_bindings_return stubEnv (toolsThenFinal 1)
        (initialState [])).2 1 (by
      intro n s hrun
      constructor
      · intro hn
        have h0 : n = 0 := by omega
        subst h0
        have hs : s = initialState [] := by
          simp only [driverLoop, Resolution.running.injEq] at hrun
          exact hrun.symm
        subst hs
        exact ⟨_, demoToolChoice, [], rfl, rfl, rfl, by decide, noEvaluatorPanic_demoCalls⟩
      · intro hn
        subst hn
        have hs : s = (driverLoop (toolFunctions stubEnv) stubEnv (toolsThenFinal 1) 1
            (initialState [])).state := by
          rw [hrun]
          rfl
        subst hs
        exact ⟨_, demoFinalChoice, [], rfl, rfl, by decide⟩)⟩

/-- C9 at the failing input: a service whose every response has finish reason
`tool_calls` and requests only registered tools, `calculate` on `x + 1` and
`write_file`, does not keep the driver loop running: the first iteration ends
in the panic of the evaluator, so for every fuel the loop has crashed with one
request sent. -/
theorem tool_loop_crashes_on_evaluator_panic (fuel : Nat) :
    (∀ s : State MemFS, RequestsTools stubEnv alwaysVariable s) ∧
    (driverLoop (toolFunctions stubEnv) stubEnv alwaysVariable (fuel + 1)
      (initialState [])).fault = some Fault.libraryPanic ∧
    requestCount (driverLoop (toolFunctions stubEnv) stubEnv alwaysVariable (fuel + 1)
      (initialState [])).state = 1 := by
  have hstep : driverIteration (toolFunctions stubEnv) stubEnv alwaysVariable
      (initialState []) =
      Step.panic Fault.libraryPanic
        { messages := initialMessages ++ [demoVariableChoice.Message],
          world :=
            { fs := [],
              trace := (initialState ([] : MemFS)).world.trace ++
                [Event.request initialMessages, Event.evaluated "x + 1"] } } := rfl
  have hloop : driverLoop (toolFunctions stubEnv) stubEnv alwaysVariable (fuel + 1)
      (initialState []) =
      Resolution.crashed Fault.libraryPanic
        { messages := initialMessages ++ [demoVariableChoice.Message],
          world :=
            { fs := [],
              trace := (initialState ([] : MemFS)).world.trace ++
                [Event.request initialMessages, Event.evaluated "x + 1"] } } := by
    simp only [driverLoop, hstep]
  refine ⟨fun s => ⟨_, demoVariableChoice, [], rfl, rfl, rfl, by decide⟩, ?_, ?_⟩
  · rw [hloop]
    rfl
  · rw [hloop]
    rfl

end GrokCli
